import Mathlib

/-!
Verification of the playback-supervisor specification of the
stream-display server (`src/app.py`, `src/modules/stream_player.py`,
`src/modules/mqtt_client.py`, `src/modules/config_manager.py`).

The embedding below translates the Python source into Lean:

* `JVal`, `getPath`, `setPath`, … embed `ConfigManager.get` / `ConfigManager.set`
  (dot-notation access into a JSON-like tree).
* `PlayerState` and the step functions `playStep`, `stopStep`, `monPollStep`,
  `showFallback`, `stopFallback` embed `StreamPlayer.play`, `StreamPlayer.stop`,
  `StreamPlayer._monitor_loop`, `StreamPlayer._show_fallback`,
  `StreamPlayer._stop_fallback`.
* `playStreamHandler`, `handleSwitch`, `stopHandler`, `cmdStep` embed the
  HTTP route `play_stream` / `stop_stream` (src/app.py) and the MQTT handlers
  `MQTTClient._handle_switch` / `_handle_stop`, together with the
  `publish_status` calls they perform.

Concurrency is modelled at two granularities.  The call-granularity model
(`PlayerState`, `cmdStep`) treats each `play`/`stop` call as one atomic
step and one `_monitor_loop` iteration as one atomic `monPoll` step
interleaving between calls; claims C1, C2, C5-C9 are settled against it
(their verdicts do not depend on finer interleaving).  Because
`_monitor_loop` takes no lock in the source, monitor statements can in
fact interleave with the settle sleep *inside* `play`, and `_stop_monitor`
cannot force a sleeping thread to exit; the thread-granularity model
(`TState`, `tStep`) makes those behaviours explicit, and claims C3 and C4
are settled against it.  In both, the environment may kill a process at
any time (`procDie`), and OS-level process identity is an append-only
table of spawned processes with an `alive` flag, pids allocated by a
counter.
-/

namespace StreamDisplay

/-! ## ConfigManager (src/modules/config_manager.py)

`self.config` is a JSON tree (loaded with `json.load`).  `JVal` is the
corresponding value type; an object is an association list of fields
(replacement-or-append assignment, first-match lookup, exactly the
observable behaviour of a Python `dict` holding JSON data). -/

inductive JVal where
  | obj : List (String × JVal) → JVal
  | str : String → JVal
  | num : Int → JVal
  | boolV : Bool → JVal
  | arr : List JVal → JVal
  | null : JVal
deriving Inhabited

/-- Python `d[k]` read on a dict: first binding of `k`, if any. -/
def lookupKey : List (String × JVal) → String → Option JVal
  | [], _ => none
  | (k', v) :: t, k => if k' = k then some v else lookupKey t k

/-- Python `d[k] = v` on a dict: replace the binding in place, or append. -/
def setKey : List (String × JVal) → String → JVal → List (String × JVal)
  | [], k, v => [(k, v)]
  | (k', v') :: t, k, v => if k' = k then (k, v) :: t else (k', v') :: setKey t k v

/-- `ConfigManager.get` after splitting the key: the loop
`for k in keys: value = value[k]`.  A missing key raises `KeyError`,
indexing a non-dict with a string key raises `TypeError`; both are caught
and produce the default, which we model as `none`. -/
def getPath : JVal → List String → Option JVal
  | v, [] => some v
  | .obj l, k :: ks =>
    match lookupKey l k with
    | some v => getPath v ks
    | none => none
  | _, _ :: _ => none

/-- Python `key.split('.')` over the key's character sequence: splitting on
every dot, keeping empty pieces, and producing `['']` for the empty string
(CPython semantics for a one-character separator). -/
def splitDot : List Char → List String
  | [] => [""]
  | ch :: rest =>
    match splitDot rest with
    | [] => []
    | s :: t => if ch = '.' then "" :: s :: t else String.mk (ch :: s.toList) :: t

/-- `ConfigManager.get(key, default)`: `keys = key.split('.')`, traverse,
return the default on `KeyError`/`TypeError`. -/
def configGet (c : JVal) (key : String) (default : JVal) : JVal :=
  (getPath c (splitDot key.toList)).getD default

/-- `ConfigManager.set` after splitting the key: walk `keys[:-1]`, creating
`{}` for absent components, then assign at the last component.  `none`
models the uncaught `TypeError` Python raises when the walk or the final
assignment hits a non-dict (the source does not catch it); the empty-path
case models the `IndexError` of `keys[-1]` on `[]`, unreachable because
`str.split` never returns an empty list.  (On a raising call the source may
have already created some intermediate `{}` entries; that partial mutation
is not modelled — no claim depends on the state after a raising `set`.) -/
def setPath : JVal → List String → JVal → Option JVal
  | _, [], _ => none
  | c, [k], v =>
    match c with
    | .obj l => some (.obj (setKey l k v))
    | _ => none
  | c, k :: k2 :: ks, v =>
    match c with
    | .obj l =>
      let sub := match lookupKey l k with
                 | some s => s
                 | none => .obj []
      match setPath sub (k2 :: ks) v with
      | some sub' => some (.obj (setKey l k sub'))
      | none => none
    | _ => none

/-- `ConfigManager.set(key, value)` (`keys = key.split('.')`). -/
def configSet (c : JVal) (key : String) (v : JVal) : Option JVal :=
  setPath c (splitDot key.toList) v

/-- The walk precondition of claim C10: every intermediate path component is
either absent from the (sub)dictionary or maps to a dictionary, and the walk
stays inside dictionaries (the root included). -/
def canSetB : JVal → List String → Bool
  | .obj _, [_] => true
  | .obj l, k :: k2 :: ks =>
    (match lookupKey l k with
     | none => canSetB (.obj []) (k2 :: ks)
     | some (.obj l') => canSetB (.obj l') (k2 :: ks)
     | some _ => false)
  | _, _ => false

/-- Structural description of a failing `get` traversal: some path component
is missing from a dictionary, or the traversal reaches a non-dictionary with
components left to consume. -/
def getFails : JVal → List String → Bool
  | _, [] => false
  | .obj l, k :: ks =>
    match lookupKey l k with
    | none => true
    | some v => getFails v ks
  | _, _ :: _ => true

/-! ## StreamPlayer (src/modules/stream_player.py) -/

/-- `self._status` values written by the source: `'stopped'`, `'starting'`,
`'playing'`, `'reconnecting'`, `'error'`. -/
inductive Status where
  | stopped
  | starting
  | playing
  | reconnecting
  | errorS
deriving Repr, DecidableEq

/-- One OS process ever spawned by the player: its pid, whether it is still
alive (`poll() is None`), whether it is the `feh` fallback viewer, and the
stream URL `mpv` was launched with (`none` for the fallback viewer). -/
structure Proc where
  pid : Nat
  alive : Bool
  isFallback : Bool
  url : Option String
deriving Repr, DecidableEq

/-- The local state of one `_monitor_loop` thread: its `attempts` counter
(a local variable of the loop) and a ghost generation tag recording which
`play`/`stop` call epoch started it. -/
structure Mon where
  attempts : Nat
  gen : Nat
deriving Repr, DecidableEq

/-- The `StreamPlayer` instance state plus the process table.
`owned` is `self._process`, `fallbackOwned` is `self._fallback_process`
(pids into `procs`); `monitor` is the running `_monitor_loop` thread if any
(`self._running`/`self._monitor_thread`); `epoch` is a ghost counter bumped
at the start of every `play`/`stop` call (the spec's "generation");
`fallbackInvocations` is a ghost counter of calls to `_show_fallback`. -/
structure PlayerState where
  status : Status
  current : Option String
  owned : Option Nat
  fallbackOwned : Option Nat
  monitor : Option Mon
  procs : List Proc
  nextPid : Nat
  epoch : Nat
  fallbackInvocations : Nat
deriving Repr, DecidableEq

/-- The configuration values the player reads: `player.max_reconnect_attempts`
and whether `streams.fallback_image` is set to an existing file
(`fallback_image and Path(fallback_image).exists()`). -/
structure Config where
  maxAttempts : Nat
  imageOk : Bool
deriving Repr, DecidableEq

/-- `_terminate_process`: SIGTERM then SIGKILL — the process ends up dead;
terminating an already-dead process is a no-op. -/
def kill (p : Nat) (l : List Proc) : List Proc :=
  l.map fun pr => if pr.pid = p then { pr with alive := false } else pr

/-- Is the process with pid `p` alive in the table? -/
def alive? (p : Nat) (l : List Proc) : Bool :=
  l.any fun pr => pr.pid == p && pr.alive

/-- `self._process and self._process.poll() is not None`: there is an owned
process and it has exited. -/
def ownedDead (s : PlayerState) : Bool :=
  match s.owned with
  | some p => !(alive? p s.procs)
  | none => false

/-- The owned process exists and is alive. -/
def ownedAlive (s : PlayerState) : Bool :=
  match s.owned with
  | some p => alive? p s.procs
  | none => false

/-- Python truthiness of `self._current_stream` (the `while` guard of
`_monitor_loop`): a non-empty string. -/
def currentTruthy (s : PlayerState) : Bool :=
  match s.current with
  | some u => !(u == "")
  | none => false

/-- `_show_fallback`: if `streams.fallback_image` is set and the file exists,
spawn `feh` and overwrite `self._fallback_process` — the source performs no
check whether a fallback process is already active, so a previously owned
viewer is simply dropped (left running).  Otherwise nothing happens.
The ghost counter records the invocation either way. -/
def showFallback (cfg : Config) (s : PlayerState) : PlayerState :=
  if cfg.imageOk then
    { s with
      fallbackOwned := some s.nextPid,
      procs := s.procs ++ [{ pid := s.nextPid, alive := true, isFallback := true, url := none }],
      nextPid := s.nextPid + 1,
      fallbackInvocations := s.fallbackInvocations + 1 }
  else
    { s with fallbackInvocations := s.fallbackInvocations + 1 }

/-- `_stop_fallback`: terminate the owned fallback process, if any, and clear
the handle. -/
def stopFallback (s : PlayerState) : PlayerState :=
  match s.fallbackOwned with
  | some p => { s with fallbackOwned := none, procs := kill p s.procs }
  | none => s

/-- Outcome of one `_start_mpv` call followed by the 1 s settle check:
the `subprocess.Popen` call itself raises (`self._process` is left
unchanged); or the process spawns but has exited by the settle check; or it
spawns and is still alive at the settle check. -/
inductive SpawnOutcome where
  | raisesO
  | crashes
  | survives
deriving Repr, DecidableEq

/-- `StreamPlayer.play(url)` (whole call, under `self._lock`).
Mirrors the source line by line: remember `old_process`; `_start_mpv` spawns
a new process into `self._process`; on success after the settle window set
`'playing'`, terminate the old process, `_stop_fallback`, `_start_monitor`
(which replaces any previous monitor with a fresh one); on an immediate
crash set `'error'`, keep `current = url`, `_show_fallback` — the old
process and the old monitor are both left untouched; if `_start_mpv` raised,
set `'error'` and `_show_fallback` — `current` and `self._process` are left
unchanged.  The ghost `epoch` is bumped at the start of the call.
The whole call, its 1 s settle sleep included, is one atomic step here,
and `_start_monitor` is modelled as replacing the single monitor slot; the
statement-level interleaving of the lock-free monitor thread with this
call, and threads that outlive `_stop_monitor`'s 1-second join, are
modelled by `playBeginT`/`playEndT`/`threadStep` below. -/
def playStep (cfg : Config) (s0 : PlayerState) (url : String) (o : SpawnOutcome) : PlayerState :=
  let s := { s0 with epoch := s0.epoch + 1 }
  let old := s.owned
  match o with
  | .raisesO =>
    showFallback cfg { s with status := .errorS }
  | .crashes =>
    showFallback cfg
      { s with
        owned := some s.nextPid,
        procs := s.procs ++ [{ pid := s.nextPid, alive := false, isFallback := false, url := some url }],
        nextPid := s.nextPid + 1,
        current := some url,
        status := .errorS }
  | .survives =>
    let s1 := { s with
                owned := some s.nextPid,
                procs := s.procs ++ [{ pid := s.nextPid, alive := true, isFallback := false, url := some url }],
                nextPid := s.nextPid + 1,
                current := some url,
                status := .playing }
    let s2 := match old with
              | some p => { s1 with procs := kill p s1.procs }
              | none => s1
    let s3 := stopFallback s2
    { s3 with monitor := some { attempts := 0, gen := s.epoch } }

/-- `StreamPlayer.stop()` (whole call, under `self._lock`): `_stop_monitor`,
terminate the owned process, clear it, clear `current`, set `'stopped'`,
`_show_fallback`.  `_stop_monitor` is modelled here as unconditionally
ending the monitor; in the source it only lowers `_running` and joins with
a 1-second timeout, which the thread-granularity `stopT` below models
faithfully. -/
def stopStep (cfg : Config) (s0 : PlayerState) : PlayerState :=
  let s := { s0 with epoch := s0.epoch + 1, monitor := none }
  let s1 := match s.owned with
            | some p => { s with procs := kill p s.procs, owned := none }
            | none => s
  showFallback cfg { s1 with current := none, status := .stopped }

/-- One iteration of `_monitor_loop` (no lock is taken in the source).
Top-of-loop guard `while self._running and self._current_stream` (thread
exits when it fails); then `if self._process and self._process.poll() is not
None`: if the owned process has exited and `attempts < max_attempts`,
increment `attempts`, set `'reconnecting'`, relaunch `self._current_stream`
and apply the settle check (`survives` → `'playing'` and `attempts = 0`;
`crashes` → counter kept; `raisesO` → exception caught, nothing else
happens); if attempts are exhausted, set `'error'`, `_show_fallback`, and
`break`; otherwise (no owned process, or it is alive) `attempts = 0`. -/
def monPollStep (cfg : Config) (s : PlayerState) (o : SpawnOutcome) : PlayerState :=
  match s.monitor with
  | none => s
  | some m =>
    if !(currentTruthy s) then { s with monitor := none }
    else
      if ownedDead s then
        if m.attempts < cfg.maxAttempts then
          let att := m.attempts + 1
          let u := s.current.getD ""
          match o with
          | .raisesO =>
            { s with status := .reconnecting, monitor := some { attempts := att, gen := m.gen } }
          | .crashes =>
            { s with
              status := .reconnecting,
              owned := some s.nextPid,
              procs := s.procs ++ [{ pid := s.nextPid, alive := false, isFallback := false, url := some u }],
              nextPid := s.nextPid + 1,
              monitor := some { attempts := att, gen := m.gen } }
          | .survives =>
            { s with
              status := .playing,
              owned := some s.nextPid,
              procs := s.procs ++ [{ pid := s.nextPid, alive := true, isFallback := false, url := some u }],
              nextPid := s.nextPid + 1,
              monitor := some { attempts := 0, gen := m.gen } }
        else
          let s' := showFallback cfg { s with status := .errorS }
          { s' with monitor := none }
      else
        { s with monitor := some { attempts := 0, gen := m.gen } }

/-- The environment: a live process may exit at any time (a dead or unknown
pid is unaffected). -/
def procDieStep (s : PlayerState) (p : Nat) : PlayerState :=
  { s with procs := kill p s.procs }

/-! ## Command surfaces (src/app.py, src/modules/mqtt_client.py) -/

/-- One message on the `<base>/status` topic, as built by
`MQTTClient.publish_status`: `{'status': …, 'current_stream': …,
'timestamp': time.time()}` published with `retain=True`.  The wall-clock
timestamp field is not modelled (its value plays no role in any claim);
the companion `<base>/current` message is likewise elided. -/
structure StatusMsg where
  status : Status
  current : Option String
  retained : Bool
deriving Repr, DecidableEq

/-- The snapshot `publish_status` emits for a given player state. -/
def statusSnapshot (s : PlayerState) : StatusMsg :=
  { status := s.status, current := s.current, retained := true }

/-- The HTTP result of `play_stream` (src/app.py): the 200 `{'success':
True, 'url': url}` response, or the synchronous 400 `'Keine Stream-URL
angegeben'` rejection (the spec's `InvalidURL`). -/
inductive PlayHttpResult where
  | okUrl (url : String)
  | errNoUrl
deriving Repr, DecidableEq

/-- The HTTP route `play_stream` (src/app.py lines 246-275), after the
`stream_id` lookup has produced `urlResolved` (the raw `data.get('url')`
when no `stream_id` is given).  `if not url:` rejects `None` and the empty
string with a 400 error and returns without touching the player; otherwise
`stream_player.play(url)` then `mqtt_client.publish_status()`. -/
def playStreamHandler (cfg : Config) (s : PlayerState) (urlResolved : Option String)
    (o : SpawnOutcome) : PlayHttpResult × PlayerState × List StatusMsg :=
  match urlResolved with
  | none => (.errNoUrl, s, [])
  | some u =>
    if u = "" then (.errNoUrl, s, [])
    else
      let s' := playStep cfg s u o
      (.okUrl u, s', [statusSnapshot s'])

/-- `MQTTClient._handle_switch` (src/modules/mqtt_client.py lines 178-214),
after camera/stream-id resolution: `if url:` call `self.player.play(url)`
and `publish_status()`; a falsy url only logs a warning — nothing is played
and nothing is published. -/
def handleSwitch (cfg : Config) (s : PlayerState) (urlResolved : Option String)
    (o : SpawnOutcome) : PlayerState × List StatusMsg :=
  match urlResolved with
  | none => (s, [])
  | some u =>
    if u = "" then (s, [])
    else
      let s' := playStep cfg s u o
      (s', [statusSnapshot s'])

/-- The HTTP route `stop_stream` and `MQTTClient._handle_stop`:
`player.stop()` then `publish_status()`. -/
def stopHandler (cfg : Config) (s : PlayerState) : PlayerState × List StatusMsg :=
  let s' := stopStep cfg s
  (s', [statusSnapshot s'])

/-- The events that drive the system: a Play command arriving over HTTP or
MQTT (with its resolved URL and the spawn outcome the OS produces), a Stop
command over either surface, one iteration of a running `_monitor_loop`
(with the outcome of its relaunch, used only if it relaunches), and an
asynchronous process exit. -/
inductive Cmd where
  | httpPlay (u : Option String) (o : SpawnOutcome)
  | httpStop
  | mqttSwitch (u : Option String) (o : SpawnOutcome)
  | mqttStop
  | monPoll (o : SpawnOutcome)
  | procDie (p : Nat)
deriving Repr, DecidableEq

/-- One system step: the new player state and the `<base>/status` messages
emitted toward the MQTT broker during that step. -/
def cmdStep (cfg : Config) (s : PlayerState) : Cmd → PlayerState × List StatusMsg
  | .httpPlay u o => ((playStreamHandler cfg s u o).2.1, (playStreamHandler cfg s u o).2.2)
  | .httpStop => stopHandler cfg s
  | .mqttSwitch u o => handleSwitch cfg s u o
  | .mqttStop => stopHandler cfg s
  | .monPoll o => (monPollStep cfg s o, [])
  | .procDie p => (procDieStep s p, [])

/-- Run a sequence of events from a state. -/
def runCmds (cfg : Config) : PlayerState → List Cmd → PlayerState
  | s, [] => s
  | s, c :: cs => runCmds cfg (cmdStep cfg s c).1 cs

/-- The freshly constructed `StreamPlayer`: `_status = 'stopped'`, no
current stream, no processes, no monitor thread. -/
def initState : PlayerState :=
  { status := .stopped, current := none, owned := none, fallbackOwned := none,
    monitor := none, procs := [], nextPid := 0, epoch := 0, fallbackInvocations := 0 }

/-- A state is reachable when some event sequence produces it from the
initial state. -/
def Reachable (cfg : Config) (s : PlayerState) : Prop :=
  ∃ tr : List Cmd, runCmds cfg initState tr = s

/-- Configuration used by the concrete scenarios: the default
`max_reconnect_attempts = 10`, fallback image present. -/
def cfg10 : Config := { maxAttempts := 10, imageOk := true }

/-- Configuration with `max_reconnect_attempts = 1`, fallback image present. -/
def cfg1 : Config := { maxAttempts := 1, imageOk := true }

/-! ## Thread-granularity model of the player

The call-granularity model above hides two behaviours of the source that
matter for claims C3 and C4: `_monitor_loop` takes no lock, so its
iterations interleave with the 1 s settle sleep *inside* `play`; and
`_stop_monitor` only sets `_running = False` and joins with a 1-second
timeout — it cannot force a sleeping thread to exit, and `_start_monitor`
then sets `_running = True` again, re-arming any thread that survived the
join.  The model below makes this explicit: each monitor thread is a record
with a program counter into the loop body, one Python statement (or
condition evaluation) is one atomic step, `play` is split into its
pre-settle half (`playBeginT`, everything up to and including the
`_start_mpv` spawn) and its post-settle half (`playEndT`, the liveness
check and the branch it selects), and joining a thread has no effect on it
— a thread disappears only by running its own exit (guard false, or
`break`).  `play`/`stop` and the two play halves remain mutually exclusive
(the `self._lock` the source holds across them). -/

/-- Program counter of one `_monitor_loop` thread: about to evaluate the
`while` guard (line 198); about to evaluate the exit check
`if self._process and self._process.poll() is not None` together with the
`attempts` branch it selects (lines 201-210 / 229-233 / 234-236); about to
execute the relaunch `self._start_mpv(self._current_stream)` (line 214,
after the reconnect-delay sleep); about to evaluate the settle check
`if self._process and self._process.poll() is None` (line 218, after the
settle sleep). -/
inductive MonPc where
  | guard
  | poll
  | relaunch
  | settleCheck
deriving Repr, DecidableEq

/-- One `_monitor_loop` thread: its identity, its local `attempts`
variable, and where in the loop body it is. -/
structure MonThread where
  tid : Nat
  attempts : Nat
  pc : MonPc
deriving Repr, DecidableEq

/-- The caller of `play` parked in its settle sleep: the `old_process`
local it recorded at the top of the call. -/
structure PendingPlay where
  oldProc : Option Nat
deriving Repr, DecidableEq

/-- The player state under the thread-granularity model.  `running` is the
shared `self._running` flag every monitor thread reads; `threads` are the
monitor threads currently alive; `pending` is the `play` call currently
inside its settle sleep, if any. -/
structure TState where
  status : Status
  current : Option String
  owned : Option Nat
  fallbackOwned : Option Nat
  running : Bool
  threads : List MonThread
  pending : Option PendingPlay
  procs : List Proc
  nextPid : Nat
  nextTid : Nat
  fallbackInvocations : Nat
deriving Repr, DecidableEq

/-- Python truthiness of `self._current_stream` in the thread model. -/
def currentTruthyT (s : TState) : Bool :=
  match s.current with
  | some u => !(u == "")
  | none => false

/-- The owned process exists and is alive (thread model). -/
def ownedAliveT (s : TState) : Bool :=
  match s.owned with
  | some p => alive? p s.procs
  | none => false

/-- `_show_fallback` on the thread-model state (same source behaviour as
`showFallback`). -/
def showFallbackT (cfg : Config) (s : TState) : TState :=
  if cfg.imageOk then
    { s with
      fallbackOwned := some s.nextPid,
      procs := s.procs ++ [{ pid := s.nextPid, alive := true, isFallback := true, url := none }],
      nextPid := s.nextPid + 1,
      fallbackInvocations := s.fallbackInvocations + 1 }
  else
    { s with fallbackInvocations := s.fallbackInvocations + 1 }

/-- `_stop_fallback` on the thread-model state. -/
def stopFallbackT (s : TState) : TState :=
  match s.fallbackOwned with
  | some p => { s with fallbackOwned := none, procs := kill p s.procs }
  | none => s

/-- Replace the thread with identity `tid`. -/
def setThread (tid : Nat) (t' : MonThread) (l : List MonThread) : List MonThread :=
  l.map fun t => if t.tid = tid then t' else t

/-- Remove the thread with identity `tid` (it ran off the end of
`_monitor_loop`). -/
def dropThread (tid : Nat) (l : List MonThread) : List MonThread :=
  l.filter fun t => !(t.tid == tid)

/-- One atomic step of the monitor thread `tid` (a no-op for an unknown
identity).  Each branch mirrors one statement of `_monitor_loop`, reading
the *current* shared state:

* `guard`: `while self._running and self._current_stream` — continue to the
  poll, or fall off the loop and end the thread.
* `poll`: `if self._process and self._process.poll() is not None` plus the
  `attempts` branch.  No owned process, or an alive one (confirmed or not),
  takes the `else` of line 234 and runs `attempts = 0`; a dead one with
  budget left runs `attempts += 1`, writes `'reconnecting'` and proceeds to
  the relaunch; a dead one without budget writes `'error'`, invokes
  `_show_fallback`, and `break`s.
* `relaunch`: `self._start_mpv(self._current_stream)`.  A cleared stream
  (`None`) makes `subprocess.Popen` raise before any spawn (caught at line
  227); otherwise the spawn may itself raise (`spawnRaises`), else a new
  process is spawned live and overwrites the shared `self._process`.
* `settleCheck`: `if self._process and self._process.poll() is None` —
  alive confirms `'playing'` and `attempts = 0`; dead or absent keeps the
  counter and loops. -/
def threadStep (cfg : Config) (s : TState) (tid : Nat) (spawnRaises : Bool) : TState :=
  match s.threads.find? (fun t => t.tid == tid) with
  | none => s
  | some t =>
    match t.pc with
    | .guard =>
      if s.running && currentTruthyT s then
        { s with threads := setThread tid { t with pc := .poll } s.threads }
      else
        { s with threads := dropThread tid s.threads }
    | .poll =>
      match s.owned with
      | some p =>
        if alive? p s.procs then
          { s with threads := setThread tid { t with attempts := 0, pc := .guard } s.threads }
        else if t.attempts < cfg.maxAttempts then
          { s with
            status := .reconnecting,
            threads := setThread tid { t with attempts := t.attempts + 1, pc := .relaunch } s.threads }
        else
          showFallbackT cfg { s with status := .errorS, threads := dropThread tid s.threads }
      | none =>
        { s with threads := setThread tid { t with attempts := 0, pc := .guard } s.threads }
    | .relaunch =>
      match s.current with
      | none =>
        { s with threads := setThread tid { t with pc := .guard } s.threads }
      | some u =>
        if spawnRaises then
          { s with threads := setThread tid { t with pc := .guard } s.threads }
        else
          { s with
            owned := some s.nextPid,
            procs := s.procs ++ [{ pid := s.nextPid, alive := true, isFallback := false, url := some u }],
            nextPid := s.nextPid + 1,
            threads := setThread tid { t with pc := .settleCheck } s.threads }
    | .settleCheck =>
      match s.owned with
      | some p =>
        if alive? p s.procs then
          { s with
            status := .playing,
            threads := setThread tid { t with attempts := 0, pc := .guard } s.threads }
        else
          { s with threads := setThread tid { t with pc := .guard } s.threads }
      | none =>
        { s with threads := setThread tid { t with pc := .guard } s.threads }

/-- The first half of `play(url)` (lines 36-49): record `old_process`,
spawn via `_start_mpv` — if `Popen` raises, the `except` branch finishes
the call at once (`'error'`, `_show_fallback`, `current` and `_process`
untouched); otherwise the new process is live, `current` and `'starting'`
are written and the caller enters its settle sleep.  A no-op while another
`play` is pending (the lock). -/
def playBeginT (cfg : Config) (s : TState) (url : String) (spawnRaises : Bool) : TState :=
  if s.pending.isSome then s
  else if spawnRaises then
    showFallbackT cfg { s with status := .errorS }
  else
    { s with
      owned := some s.nextPid,
      procs := s.procs ++ [{ pid := s.nextPid, alive := true, isFallback := false, url := some url }],
      nextPid := s.nextPid + 1,
      current := some url,
      status := .starting,
      pending := some { oldProc := s.owned } }

/-- The second half of `play` (lines 51-71), after the settle sleep: read
the liveness of the *current* `self._process`.  Alive: `'playing'`,
terminate the recorded `old_process`, `_stop_fallback`, `_start_monitor` —
which sets `_running = False`, joins the tracked thread with a 1-second
timeout (no effect on the thread itself: it exits only at its own guard
check), sets `_running = True` and starts a fresh thread, so every
pre-existing thread survives and is re-armed.  Dead or absent: `'error'`,
keep `current = url`, `_show_fallback`; the old process and all previous
monitor threads are left untouched. -/
def playEndT (cfg : Config) (s : TState) : TState :=
  match s.pending with
  | none => s
  | some pd =>
    match s.owned with
    | some p =>
      if alive? p s.procs then
        let s1 := { s with status := .playing, pending := none }
        let s2 := match pd.oldProc with
                  | some q => { s1 with procs := kill q s1.procs }
                  | none => s1
        let s3 := stopFallbackT s2
        { s3 with
          running := true,
          threads := s3.threads ++ [{ tid := s3.nextTid, attempts := 0, pc := .guard }],
          nextTid := s3.nextTid + 1 }
      else
        showFallbackT cfg { s with status := .errorS, pending := none }
    | none =>
      showFallbackT cfg { s with status := .errorS, pending := none }

/-- `stop()` under the thread model: `_stop_monitor` lowers `_running`
(the join cannot remove a thread), the owned process is terminated and
cleared, `current` is cleared, `'stopped'` is written and the fallback
shown.  A no-op while a `play` is pending (the lock).  The call is one
step; a monitor statement interleaving into the call's own blocking waits
(the 1 s join, the bounded termination wait) could at most spawn a process
*before* the call returns — the call still ends by clearing `_process` and
`_current_stream` with `_running` down, the same quiescent post-state the
theorems below start from. -/
def stopT (cfg : Config) (s : TState) : TState :=
  if s.pending.isSome then s
  else
    let s1 := { s with running := false }
    let s2 := match s1.owned with
              | some p => { s1 with procs := kill p s1.procs, owned := none }
              | none => s1
    showFallbackT cfg { s2 with current := none, status := .stopped }

/-- The events of the thread-granularity model. -/
inductive TEv where
  | playBegin (u : String) (spawnRaises : Bool)
  | playEnd
  | stopCmd
  | thread (tid : Nat) (spawnRaises : Bool)
  | procDie (p : Nat)
deriving Repr, DecidableEq

/-- One step of the thread-granularity model. -/
def tStep (cfg : Config) (s : TState) : TEv → TState
  | .playBegin u r => playBeginT cfg s u r
  | .playEnd => playEndT cfg s
  | .stopCmd => stopT cfg s
  | .thread tid r => threadStep cfg s tid r
  | .procDie p => { s with procs := kill p s.procs }

/-- Run a sequence of thread-model events. -/
def runT (cfg : Config) : TState → List TEv → TState
  | s, [] => s
  | s, e :: es => runT cfg (tStep cfg s e) es

/-- The freshly constructed `StreamPlayer` (`__init__` sets
`self._running = True` with no thread started). -/
def initT : TState :=
  { status := .stopped, current := none, owned := none, fallbackOwned := none,
    running := true, threads := [], pending := none, procs := [], nextPid := 0,
    nextTid := 0, fallbackInvocations := 0 }

/-- Only monitor-thread events (no command reaches the player). -/
def threadOnly : TEv → Bool
  | .thread _ _ => true
  | _ => false

/-- The condition `stop()` leaves behind: monitor flag down, no current
stream, no owned process. -/
def stoppedQuiet (s : TState) : Bool :=
  !s.running && s.current.isNone && s.owned.isNone

/-! ## Process-table lemmas -/

/-- Every pid in the table is below the allocation counter. -/
def pidsLt (n : Nat) (l : List Proc) : Bool :=
  l.all fun pr => pr.pid < n

/-- Bound on an optionally held pid. -/
def pBound (n : Nat) : Option Nat → Bool
  | some p => decide (p < n)
  | none => true

theorem alive?_append (p : Nat) (l : List Proc) (pr : Proc) :
    alive? p (l ++ [pr]) = (alive? p l || (pr.pid == p && pr.alive)) := by
  simp [alive?, List.any_append]

theorem alive?_kill_self (p : Nat) (l : List Proc) : alive? p (kill p l) = false := by
  induction l with
  | nil => rfl
  | cons pr t ih =>
    simp only [kill, List.map_cons, alive?, List.any_cons] at ih ⊢
    rw [ih]
    by_cases hq : pr.pid = p
    · simp [hq]
    · have hpp : (pr.pid == p) = false := beq_eq_false_iff_ne.mpr hq
      simp [hq, hpp]

theorem alive?_kill_ne (p q : Nat) (l : List Proc) (h : p ≠ q) :
    alive? p (kill q l) = alive? p l := by
  induction l with
  | nil => rfl
  | cons pr t ih =>
    simp only [kill, List.map_cons, alive?, List.any_cons] at ih ⊢
    rw [ih]
    by_cases hq : pr.pid = q
    · have hpp : (pr.pid == p) = false := by
        rw [beq_eq_false_iff_ne]
        intro hc
        exact h (by rw [← hc, hq])
      rw [if_pos hq]
      simp [hpp]
    · simp [hq]

theorem alive?_kill_mono (p q : Nat) (l : List Proc) (h : alive? p (kill q l) = true) :
    alive? p l = true := by
  by_cases hpq : p = q
  · subst hpq; rw [alive?_kill_self] at h; exact absurd h (by simp)
  · rwa [alive?_kill_ne p q l hpq] at h

theorem pidsLt_kill (n q : Nat) (l : List Proc) : pidsLt n (kill q l) = pidsLt n l := by
  induction l with
  | nil => rfl
  | cons pr t ih =>
    simp only [kill, List.map_cons, pidsLt, List.all_cons] at ih ⊢
    rw [ih]
    by_cases hq : pr.pid = q <;> simp [hq]

theorem pidsLt_mono (n : Nat) (l : List Proc) (h : pidsLt n l = true) :
    pidsLt (n + 1) l = true := by
  simp only [pidsLt, List.all_eq_true] at h ⊢
  exact fun pr hpr => by have := h pr hpr; simp at this ⊢; omega

theorem alive?_ge (n : Nat) (l : List Proc) (h : pidsLt n l = true) :
    alive? n l = false := by
  simp only [pidsLt, List.all_eq_true] at h
  simp only [alive?, List.any_eq_false]
  intro pr hpr
  have := h pr hpr
  simp at this ⊢
  intro he
  omega

theorem alive?_append_fresh (p n : Nat) (l : List Proc) (pr : Proc)
    (hpr : pr.pid = n) (hp : p < n) : alive? p (l ++ [pr]) = alive? p l := by
  rw [alive?_append]
  have : (pr.pid == p) = false := by
    rw [hpr]; exact beq_eq_false_iff_ne.mpr (by omega)
  simp [this]

/-! ## The reachability invariant

For every state reachable in the call-granularity model: every table pid
and every held pid is below the allocation counter, and while a monitor is
running there is an owned process, and if that process is alive the
monitor's `attempts` counter is `0`.  (This last fact is specific to the
call-granularity interleaving: under statement-level interleaving a monitor
with a positive counter can observe an alive process mid-settle — see
claim C4 against the thread model.) -/

/-- Monitor part of the invariant, over explicit components: while a monitor
runs there is an owned process, and if that process is alive the monitor's
`attempts` counter is `0`. -/
def monOkCore (monitor : Option Mon) (owned : Option Nat) (procs : List Proc) : Bool :=
  match monitor with
  | none => true
  | some m =>
    owned.isSome &&
      (!(match owned with | some p => alive? p procs | none => false) || m.attempts == 0)

/-- The full invariant. -/
def invB (s : PlayerState) : Bool :=
  pidsLt s.nextPid s.procs && pBound s.nextPid s.owned &&
    pBound s.nextPid s.fallbackOwned && monOkCore s.monitor s.owned s.procs

theorem pidsLt_snoc (n : Nat) (l : List Proc) (pr : Proc) :
    pidsLt n (l ++ [pr]) = (pidsLt n l && decide (pr.pid < n)) := by
  simp [pidsLt, List.all_append]

theorem pBound_mono (n : Nat) (o : Option Nat) (h : pBound n o = true) :
    pBound (n + 1) o = true := by
  cases o with
  | none => rfl
  | some p => simp [pBound] at h ⊢; omega

theorem monOkCore_mono (mon : Option Mon) (ow : Option Nat) (l l' : List Proc)
    (hal : ∀ p, ow = some p → alive? p l' = true → alive? p l = true)
    (h : monOkCore mon ow l = true) : monOkCore mon ow l' = true := by
  cases mon with
  | none => rfl
  | some m =>
    cases ow with
    | none => simp [monOkCore] at h
    | some p =>
      simp only [monOkCore, Option.isSome_some, Bool.true_and] at h ⊢
      cases hl' : alive? p l' with
      | false => simp
      | true =>
        have hl : alive? p l = true := hal p rfl hl'
        rw [hl] at h
        simpa using h

theorem invB_showFallback (cfg : Config) (s : PlayerState) (h : invB s = true) :
    invB (showFallback cfg s) = true := by
  simp only [invB, Bool.and_eq_true] at h
  obtain ⟨⟨⟨h1, h2⟩, h3⟩, h4⟩ := h
  unfold showFallback
  by_cases hio : cfg.imageOk
  · simp only [if_pos hio, invB, Bool.and_eq_true]
    refine ⟨⟨⟨?_, ?_⟩, ?_⟩, ?_⟩
    · rw [pidsLt_snoc]
      simp [pidsLt_mono _ _ h1]
    · exact pBound_mono _ _ h2
    · simp [pBound]
    · refine monOkCore_mono _ _ s.procs _ ?_ h4
      intro p hp hal
      cases hp' : s.owned with
      | none => rw [hp'] at hp; cases hp
      | some p0 =>
        rw [hp'] at hp
        cases hp
        rw [hp'] at h2
        simp [pBound] at h2
        rwa [alive?_append_fresh p s.nextPid s.procs _ rfl h2] at hal
  · simpa [if_neg hio, invB, Bool.and_eq_true] using ⟨⟨⟨h1, h2⟩, h3⟩, h4⟩

theorem invB_stopFallback (s : PlayerState) (h : invB s = true) :
    invB (stopFallback s) = true := by
  simp only [invB, Bool.and_eq_true] at h
  obtain ⟨⟨⟨h1, h2⟩, h3⟩, h4⟩ := h
  unfold stopFallback
  cases hf : s.fallbackOwned with
  | none =>
    simp only [invB, Bool.and_eq_true]
    exact ⟨⟨⟨h1, h2⟩, h3⟩, h4⟩
  | some q =>
    simp only [invB, Bool.and_eq_true]
    refine ⟨⟨⟨?_, ?_⟩, ?_⟩, ?_⟩
    · rw [pidsLt_kill]; exact h1
    · exact h2
    · rfl
    · refine monOkCore_mono _ _ s.procs _ ?_ h4
      intro p _ hal
      exact alive?_kill_mono p q s.procs hal

theorem invB_core_showFallback (cfg : Config) (s : PlayerState)
    (h1 : pidsLt s.nextPid s.procs = true) (h2 : pBound s.nextPid s.owned = true)
    (h3 : pBound s.nextPid s.fallbackOwned = true) :
    pidsLt (showFallback cfg s).nextPid (showFallback cfg s).procs = true ∧
    pBound (showFallback cfg s).nextPid (showFallback cfg s).owned = true ∧
    pBound (showFallback cfg s).nextPid (showFallback cfg s).fallbackOwned = true := by
  unfold showFallback
  by_cases hio : cfg.imageOk
  · simp only [if_pos hio]
    refine ⟨?_, pBound_mono _ _ h2, by simp [pBound]⟩
    rw [pidsLt_snoc]
    simp [pidsLt_mono _ _ h1]
  · simp only [if_neg hio]
    exact ⟨h1, h2, h3⟩

theorem ownedDead_split (s : PlayerState) (h : ownedDead s = true) :
    ∃ p, s.owned = some p ∧ alive? p s.procs = false := by
  unfold ownedDead at h
  cases ho : s.owned with
  | none => rw [ho] at h; cases h
  | some p =>
    rw [ho] at h
    simp at h
    exact ⟨p, rfl, h⟩

theorem invB_playStep (cfg : Config) (s : PlayerState) (url : String) (o : SpawnOutcome)
    (h : invB s = true) : invB (playStep cfg s url o) = true := by
  simp only [invB, Bool.and_eq_true] at h
  obtain ⟨⟨⟨h1, h2⟩, h3⟩, h4⟩ := h
  cases o with
  | raisesO =>
    exact invB_showFallback cfg _ (by simpa [invB, Bool.and_eq_true] using ⟨⟨⟨h1, h2⟩, h3⟩, h4⟩)
  | crashes =>
    refine invB_showFallback cfg _ ?_
    simp only [invB, Bool.and_eq_true]
    refine ⟨⟨⟨?_, ?_⟩, ?_⟩, ?_⟩
    · rw [pidsLt_snoc]
      simp [pidsLt_mono _ _ h1]
    · simp [pBound]
    · exact pBound_mono _ _ h3
    · cases hm : s.monitor with
      | none => rfl
      | some m =>
        simp only [monOkCore, Option.isSome_some, Bool.true_and]
        have : alive? s.nextPid (s.procs ++
            [{ pid := s.nextPid, alive := false, isFallback := false, url := some url }]) = false := by
          rw [alive?_append]
          simp [alive?_ge _ _ h1]
        rw [this]
        simp
  | survives =>
    unfold playStep stopFallback
    have hsnoc : pidsLt (s.nextPid + 1) (s.procs ++
        [{ pid := s.nextPid, alive := true, isFallback := false, url := some url }]) = true := by
      rw [pidsLt_snoc]
      simp [pidsLt_mono _ _ h1]
    cases ho : s.owned with
    | none =>
      cases hf : s.fallbackOwned with
      | none =>
        simp only [ho, hf, invB, Bool.and_eq_true]
        exact ⟨⟨⟨hsnoc, by simp [pBound]⟩, rfl⟩, by simp [monOkCore]⟩
      | some q =>
        simp only [ho, hf, invB, Bool.and_eq_true]
        exact ⟨⟨⟨by rw [pidsLt_kill]; exact hsnoc, by simp [pBound]⟩, rfl⟩, by simp [monOkCore]⟩
    | some p =>
      cases hf : s.fallbackOwned with
      | none =>
        simp only [ho, hf, invB, Bool.and_eq_true]
        exact ⟨⟨⟨by rw [pidsLt_kill]; exact hsnoc, by simp [pBound]⟩, rfl⟩, by simp [monOkCore]⟩
      | some q =>
        simp only [ho, hf, invB, Bool.and_eq_true]
        exact ⟨⟨⟨by rw [pidsLt_kill, pidsLt_kill]; exact hsnoc, by simp [pBound]⟩, rfl⟩,
          by simp [monOkCore]⟩

theorem invB_stopStep (cfg : Config) (s : PlayerState) (h : invB s = true) :
    invB (stopStep cfg s) = true := by
  simp only [invB, Bool.and_eq_true] at h
  obtain ⟨⟨⟨h1, h2⟩, h3⟩, h4⟩ := h
  unfold stopStep
  refine invB_showFallback cfg _ ?_
  cases ho : s.owned with
  | none =>
    simp only [ho, invB, Bool.and_eq_true]
    exact ⟨⟨⟨h1, by rw [ho] at h2; exact h2⟩, h3⟩, rfl⟩
  | some p =>
    simp only [ho, invB, Bool.and_eq_true]
    exact ⟨⟨⟨by rw [pidsLt_kill]; exact h1, rfl⟩, h3⟩, rfl⟩

theorem invB_monPollStep (cfg : Config) (s : PlayerState) (o : SpawnOutcome)
    (h : invB s = true) : invB (monPollStep cfg s o) = true := by
  have hparts := h
  simp only [invB, Bool.and_eq_true] at hparts
  obtain ⟨⟨⟨h1, h2⟩, h3⟩, h4⟩ := hparts
  unfold monPollStep
  cases hm : s.monitor with
  | none => exact h
  | some m =>
    by_cases hg : currentTruthy s
    · simp only [hg, Bool.not_true, if_false, Bool.false_eq_true]
      by_cases hd : ownedDead s
      · obtain ⟨p, hp, hpd⟩ := ownedDead_split s hd
        simp only [hd, if_true]
        by_cases hlt : m.attempts < cfg.maxAttempts
        · simp only [hlt, if_true]
          cases o with
          | raisesO =>
            simp only [invB, Bool.and_eq_true]
            refine ⟨⟨⟨h1, h2⟩, h3⟩, ?_⟩
            simp [monOkCore, hp, hpd]
          | crashes =>
            simp only [invB, Bool.and_eq_true]
            refine ⟨⟨⟨?_, by simp [pBound]⟩, pBound_mono _ _ h3⟩, ?_⟩
            · rw [pidsLt_snoc]
              simp [pidsLt_mono _ _ h1]
            · simp only [monOkCore, Option.isSome_some, Bool.true_and]
              have : alive? s.nextPid (s.procs ++
                  [{ pid := s.nextPid, alive := false, isFallback := false,
                     url := some (s.current.getD "") }]) = false := by
                rw [alive?_append]
                simp [alive?_ge _ _ h1]
              rw [this]
              simp
          | survives =>
            simp only [invB, Bool.and_eq_true]
            refine ⟨⟨⟨?_, by simp [pBound]⟩, pBound_mono _ _ h3⟩, by simp [monOkCore]⟩
            rw [pidsLt_snoc]
            simp [pidsLt_mono _ _ h1]
        · simp only [hlt, if_false]
          obtain ⟨g1, g2, g3⟩ := invB_core_showFallback cfg
            { s with status := Status.errorS, monitor := some m } h1 h2 h3
          simp only [invB, Bool.and_eq_true]
          exact ⟨⟨⟨g1, g2⟩, g3⟩, rfl⟩
      · simp only [hd, if_false]
        simp only [invB, Bool.and_eq_true]
        refine ⟨⟨⟨h1, h2⟩, h3⟩, ?_⟩
        rw [hm] at h4
        simp only [monOkCore, Bool.and_eq_true] at h4
        simp [monOkCore, h4.1]
    · simp only [invB, Bool.and_eq_true]
      rw [eq_false_of_ne_true hg]
      simp only [Bool.not_false, if_true]
      exact ⟨⟨⟨h1, h2⟩, h3⟩, rfl⟩

theorem invB_procDieStep (s : PlayerState) (p : Nat) (h : invB s = true) :
    invB (procDieStep s p) = true := by
  simp only [invB, Bool.and_eq_true] at h
  obtain ⟨⟨⟨h1, h2⟩, h3⟩, h4⟩ := h
  unfold procDieStep
  simp only [invB, Bool.and_eq_true]
  refine ⟨⟨⟨by rw [pidsLt_kill]; exact h1, h2⟩, h3⟩, ?_⟩
  refine monOkCore_mono _ _ s.procs _ ?_ h4
  intro q _ hal
  exact alive?_kill_mono q p s.procs hal

theorem invB_cmdStep (cfg : Config) (s : PlayerState) (c : Cmd) (h : invB s = true) :
    invB (cmdStep cfg s c).1 = true := by
  cases c with
  | httpPlay u o =>
    cases u with
    | none => exact h
    | some u' =>
      by_cases hu : u' = ""
      · simp [cmdStep, playStreamHandler, hu]; exact h
      · simp only [cmdStep, playStreamHandler, if_neg hu]
        exact invB_playStep cfg s u' o h
  | httpStop => exact invB_stopStep cfg s h
  | mqttSwitch u o =>
    cases u with
    | none => exact h
    | some u' =>
      by_cases hu : u' = ""
      · simp [cmdStep, handleSwitch, hu]; exact h
      · simp only [cmdStep, handleSwitch, if_neg hu]
        exact invB_playStep cfg s u' o h
  | mqttStop => exact invB_stopStep cfg s h
  | monPoll o => exact invB_monPollStep cfg s o h
  | procDie p => exact invB_procDieStep s p h

theorem invB_runCmds (cfg : Config) (tr : List Cmd) :
    ∀ s : PlayerState, invB s = true → invB (runCmds cfg s tr) = true := by
  induction tr with
  | nil => intro s h; exact h
  | cons c cs ih => intro s h; exact ih _ (invB_cmdStep cfg s c h)

theorem reachable_invB (cfg : Config) (s : PlayerState) (h : Reachable cfg s) :
    invB s = true := by
  obtain ⟨tr, rfl⟩ := h
  exact invB_runCmds cfg tr initState rfl

/-! ## Concrete scenario states used by witnesses and counterexamples -/

/-- The state after a successful `Play("a")` from the initial state:
`playing`, pid 0 owned and alive, monitor of generation 1 running. -/
def sPlayingA : PlayerState :=
  runCmds cfg10 initState [Cmd.httpPlay (some "a") SpawnOutcome.survives]

/-- The state after `Play("a")` succeeded and then `Play("b")` crashed
within its settle window: status `'error'`, `current = "b"`, the process
for `"a"` (pid 0) still alive, the dead process for `"b"` (pid 1) owned,
the fallback viewer (pid 2) active, and the generation-1 monitor still
running. -/
def sAfterBadSwitch : PlayerState :=
  runCmds cfg10 initState
    [Cmd.httpPlay (some "a") SpawnOutcome.survives, Cmd.httpPlay (some "b") SpawnOutcome.crashes]

/-! ## Projection lemmas for the step functions -/

theorem playStep_crashes_status (cfg : Config) (s : PlayerState) (b : String) :
    (playStep cfg s b .crashes).status = .errorS := by
  unfold playStep showFallback
  by_cases hio : cfg.imageOk <;> simp [hio]

theorem playStep_crashes_current (cfg : Config) (s : PlayerState) (b : String) :
    (playStep cfg s b .crashes).current = some b := by
  unfold playStep showFallback
  by_cases hio : cfg.imageOk <;> simp [hio]

theorem playStep_crashes_owned (cfg : Config) (s : PlayerState) (b : String) :
    (playStep cfg s b .crashes).owned = some s.nextPid := by
  unfold playStep showFallback
  by_cases hio : cfg.imageOk <;> simp [hio]

theorem playStep_crashes_monitor (cfg : Config) (s : PlayerState) (b : String) :
    (playStep cfg s b .crashes).monitor = s.monitor := by
  unfold playStep showFallback
  by_cases hio : cfg.imageOk <;> simp [hio]

theorem playStep_crashes_procs (cfg : Config) (s : PlayerState) (b : String) :
    (playStep cfg s b .crashes).procs =
      (if cfg.imageOk then
        (s.procs ++ [{ pid := s.nextPid, alive := false, isFallback := false, url := some b }]) ++
          [{ pid := s.nextPid + 1, alive := true, isFallback := true, url := none }]
      else
        s.procs ++ [{ pid := s.nextPid, alive := false, isFallback := false, url := some b }]) := by
  unfold playStep showFallback
  by_cases hio : cfg.imageOk <;> simp [hio]

theorem showFallback_monitor (cfg : Config) (s : PlayerState) :
    (showFallback cfg s).monitor = s.monitor := by
  unfold showFallback
  by_cases hio : cfg.imageOk <;> simp [hio]

theorem showFallback_status (cfg : Config) (s : PlayerState) :
    (showFallback cfg s).status = s.status := by
  unfold showFallback
  by_cases hio : cfg.imageOk <;> simp [hio]

theorem showFallback_current (cfg : Config) (s : PlayerState) :
    (showFallback cfg s).current = s.current := by
  unfold showFallback
  by_cases hio : cfg.imageOk <;> simp [hio]

theorem showFallback_owned (cfg : Config) (s : PlayerState) :
    (showFallback cfg s).owned = s.owned := by
  unfold showFallback
  by_cases hio : cfg.imageOk <;> simp [hio]

theorem showFallback_invocations (cfg : Config) (s : PlayerState) :
    (showFallback cfg s).fallbackInvocations = s.fallbackInvocations + 1 := by
  unfold showFallback
  by_cases hio : cfg.imageOk <;> simp [hio]

theorem playStep_raises_monitor (cfg : Config) (s : PlayerState) (u : String) :
    (playStep cfg s u .raisesO).monitor = s.monitor := by
  unfold playStep
  rw [showFallback_monitor]

theorem stopStep_monitor (cfg : Config) (s : PlayerState) :
    (stopStep cfg s).monitor = none := by
  unfold stopStep
  cases ho : s.owned <;> rw [showFallback_monitor]


/-! ## Claims -/

/-- C8: a Play request whose resolved target URL is missing (`None`) or
empty is rejected synchronously — the HTTP route `play_stream` returns the
400 error (`InvalidURL`) — and the player state is returned unchanged:
status, `current_stream`, the owned process and the whole process table are
exactly as before the call, and no process is launched or terminated.  The
MQTT `_handle_switch` path likewise never invokes `play` and leaves the
state unchanged. -/
theorem c8_invalid_url_rejected (cfg : Config) (s : PlayerState) (o : SpawnOutcome) :
    playStreamHandler cfg s none o = (.errNoUrl, s, []) ∧
    playStreamHandler cfg s (some "") o = (.errNoUrl, s, []) ∧
    handleSwitch cfg s none o = (s, []) ∧
    handleSwitch cfg s (some "") o = (s, []) := by
  refine ⟨rfl, ?_, rfl, ?_⟩ <;> simp [playStreamHandler, handleSwitch]

/-- C9: when spawning the player process itself raises (`_start_mpv` fails
in `subprocess.Popen`, before `self._process` is assigned), `play` sets
status `'error'` and shows the fallback, but `current_stream` and the owned
process handle keep their previous values — the failing URL is not
recorded.  By contrast, when the spawn succeeds and the process crashes
within the settle window, `current_stream` is set to the failing URL. -/
theorem c9_raise_keeps_current (cfg : Config) (s : PlayerState) (url : String) :
    ((playStep cfg s url .raisesO).status = .errorS ∧
     (playStep cfg s url .raisesO).current = s.current ∧
     (playStep cfg s url .raisesO).owned = s.owned ∧
     (playStep cfg s url .raisesO).procs.length =
       s.procs.length + (if cfg.imageOk then 1 else 0) ∧
     (playStep cfg s url .raisesO).fallbackInvocations = s.fallbackInvocations + 1) ∧
    ((playStep cfg s url .crashes).status = .errorS ∧
     (playStep cfg s url .crashes).current = some url ∧
     (playStep cfg s url .crashes).fallbackInvocations = s.fallbackInvocations + 1) := by
  by_cases hio : cfg.imageOk <;> simp [playStep, showFallback, hio]

/-- C1 counterexample: from the initial state, `Play("a")` succeeds (pid 0,
`playing`), then `Play("b")` crashes within its settle window.  This lands
in the claim's `Error` outcome with `current_stream = "b"`, but the
outgoing process for `"a"` (pid 0) is still alive: the failure branch of
`play` never touches `old_process`, so "the outgoing process for `a` is
terminated in both outcomes" is false. -/
theorem c1_counterexample :
    sPlayingA.status = .playing ∧ sPlayingA.owned = some 0 ∧
    sPlayingA.current = some "a" ∧
    sAfterBadSwitch.status = .errorS ∧ sAfterBadSwitch.current = some "b" ∧
    alive? 0 sAfterBadSwitch.procs = true := by decide

/-- C1 (amended): calling `Play(b)` while `Playing(a)` with live owned
process `p` results, after the settle window, in either `Playing(b)` with
the process for `a` terminated, or `Error` with `current_stream == b` and
the process for `a` left running — neither terminated nor restored (it is
no longer the owned process and its handle is dropped). -/
theorem c1_handover (cfg : Config) (s : PlayerState) (a b : String) (p : Nat)
    (hst : s.status = .playing) (hcur : s.current = some a)
    (hown : s.owned = some p) (halive : alive? p s.procs = true)
    (hbound : p < s.nextPid) :
    ((playStep cfg s b .survives).status = .playing ∧
     (playStep cfg s b .survives).current = some b ∧
     alive? p (playStep cfg s b .survives).procs = false) ∧
    ((playStep cfg s b .crashes).status = .errorS ∧
     (playStep cfg s b .crashes).current = some b ∧
     alive? p (playStep cfg s b .crashes).procs = true ∧
     (playStep cfg s b .crashes).owned ≠ some p) := by
  constructor
  · unfold playStep stopFallback
    simp only [hown]
    cases hf : s.fallbackOwned with
    | none =>
      refine ⟨rfl, rfl, ?_⟩
      exact alive?_kill_self p _
    | some q =>
      refine ⟨rfl, rfl, ?_⟩
      cases hq : alive? p (kill q (kill p (s.procs ++
          [{ pid := s.nextPid, alive := true, isFallback := false, url := some b }]))) with
      | false => rfl
      | true =>
        have := alive?_kill_mono _ _ _ hq
        rw [alive?_kill_self] at this
        cases this
  · refine ⟨playStep_crashes_status cfg s b, playStep_crashes_current cfg s b, ?_, ?_⟩
    · rw [playStep_crashes_procs]
      by_cases hio : cfg.imageOk
      · rw [if_pos hio,
          alive?_append_fresh p (s.nextPid + 1) _ _ rfl (Nat.lt_succ_of_lt hbound),
          alive?_append_fresh p s.nextPid s.procs _ rfl hbound]
        exact halive
      · rw [if_neg hio, alive?_append_fresh p s.nextPid s.procs _ rfl hbound]
        exact halive
    · rw [playStep_crashes_owned]
      intro hc
      have : s.nextPid = p := by injection hc
      omega

/-- The state after the generation-1 monitor, still running after the
failed switch to `"b"`, relaunches `"b"` successfully: status `playing`
while the fallback viewer (pid 2) is still alive. -/
def sReconnected : PlayerState := monPollStep cfg10 sAfterBadSwitch SpawnOutcome.survives

/-- C2 counterexample: in the reachable state obtained by `Play("a")`
(success), `Play("b")` (settle-window crash, fallback shown, old monitor
left running), then one monitor iteration whose relaunch survives, the
status is the confirmed `playing`, the owned player process (pid 3) is
alive — and the fallback viewer (pid 2) is alive and still owned: the
monitor's reconnect-success path never calls `_stop_fallback`, so fallback
display is active simultaneously with a confirmed `Playing` status. -/
theorem c2_counterexample :
    sReconnected.status = .playing ∧
    ownedAlive sReconnected = true ∧
    sReconnected.fallbackOwned = some 2 ∧
    alive? 2 sReconnected.procs = true ∧
    (sReconnected.procs.filter fun pr => pr.isFallback && pr.alive).length = 1 := by
  decide

/-- C2 (amended): the fallback viewer is hidden whenever a `Play` call
confirms a healthy process past its settle window, but a successful monitor
reconnect does not hide it — the monitor's settle-success branch sets status
`playing` and leaves `self._fallback_process` exactly as it was, so fallback
exclusivity holds for `Play` but fails across monitor reconnects. -/
theorem c2_fallback (cfg : Config) (s : PlayerState) (u : String) (m : Mon) (p : Nat)
    (hm : s.monitor = some m) (hcur : currentTruthy s = true)
    (hown : s.owned = some p) (hdead : alive? p s.procs = false)
    (hlt : m.attempts < cfg.maxAttempts) :
    (∀ s' : PlayerState, (playStep cfg s' u .survives).fallbackOwned = none) ∧
    (monPollStep cfg s .survives).fallbackOwned = s.fallbackOwned ∧
    (monPollStep cfg s .survives).status = .playing := by
  refine ⟨?_, ?_⟩
  · intro s'
    unfold playStep stopFallback
    cases ho : s'.owned <;> cases hf : s'.fallbackOwned <;> simp [ho, hf]
  · have hd : ownedDead s = true := by
      unfold ownedDead
      rw [hown]
      simp [hdead]
    unfold monPollStep
    rw [hm]
    simp [hcur, hd, hlt]

/-- C2 witness: the amended statement instantiated at the reachable state
after the failed switch to `"b"` (monitor generation 1, dead owned pid 1). -/
theorem c2_fallback_witness :
    (∀ s' : PlayerState, (playStep cfg10 s' "b" .survives).fallbackOwned = none) ∧
    (monPollStep cfg10 sAfterBadSwitch .survives).fallbackOwned = sAfterBadSwitch.fallbackOwned ∧
    (monPollStep cfg10 sAfterBadSwitch .survives).status = .playing :=
  c2_fallback cfg10 sAfterBadSwitch "b" { attempts := 0, gen := 1 } 1 (by decide) (by decide)
    (by decide) (by decide) (by decide)


/-- The state (under `max_reconnect_attempts = 1`) after `Play("a")`
succeeded, the process crashed, and one failed relaunch consumed the whole
attempt budget: monitor at `attempts = 1`, owned pid 1 dead. -/
def sExhausted : PlayerState :=
  runCmds cfg1 initState
    [Cmd.httpPlay (some "a") SpawnOutcome.survives, Cmd.procDie 0, Cmd.monPoll SpawnOutcome.crashes]

/-- C5: when a monitor iteration finds the owned process dead and the
attempt budget consumed (`attempts >= max_attempts`), it sets status
`'error'`, invokes `_show_fallback` exactly once, launches no replacement
process, clears the monitor, and from then on a monitor iteration is a
strict no-op — so the `Error` status and the fallback invocation of a
failing monitor run happen exactly once and the monitor never polls or
relaunches again. -/
theorem c5_exhaustion (cfg : Config) (s : PlayerState) (m : Mon) (p : Nat)
    (o o' : SpawnOutcome) (hm : s.monitor = some m) (hcur : currentTruthy s = true)
    (hown : s.owned = some p) (hdead : alive? p s.procs = false)
    (hexh : ¬ m.attempts < cfg.maxAttempts) :
    (monPollStep cfg s o).status = .errorS ∧
    (monPollStep cfg s o).fallbackInvocations = s.fallbackInvocations + 1 ∧
    (monPollStep cfg s o).monitor = none ∧
    (monPollStep cfg s o).owned = s.owned ∧
    monPollStep cfg (monPollStep cfg s o) o' = monPollStep cfg s o := by
  have hd : ownedDead s = true := by
    unfold ownedDead
    rw [hown]
    simp [hdead]
  have hstep : monPollStep cfg s o =
      { showFallback cfg { s with status := .errorS } with monitor := none } := by
    unfold monPollStep
    rw [hm]
    simp [hcur, hd, hexh]
  refine ⟨?_, ?_, ?_, ?_, ?_⟩
  · rw [hstep]
    simp [showFallback_status]
  · rw [hstep]
    simp [showFallback_invocations]
  · rw [hstep]
  · rw [hstep]
    simp [showFallback_owned]
  · rw [hstep]
    unfold monPollStep
    simp

/-- C5 witness: instantiated at the reachable exhausted state under
`max_reconnect_attempts = 1`. -/
theorem c5_exhaustion_witness :
    (monPollStep cfg1 sExhausted .crashes).status = .errorS ∧
    (monPollStep cfg1 sExhausted .crashes).fallbackInvocations =
      sExhausted.fallbackInvocations + 1 ∧
    (monPollStep cfg1 sExhausted .crashes).monitor = none ∧
    (monPollStep cfg1 sExhausted .crashes).owned = sExhausted.owned ∧
    monPollStep cfg1 (monPollStep cfg1 sExhausted .crashes) .survives =
      monPollStep cfg1 sExhausted .crashes :=
  c5_exhaustion cfg1 sExhausted { attempts := 1, gen := 1 } 1 .crashes .survives
    (by decide) (by decide) (by decide) (by decide) (by decide)

/-- The states after one and after two `Stop` commands from the initial
state (each `stop` ends with `_show_fallback`). -/
def sStopped1 : PlayerState := runCmds cfg10 initState [Cmd.httpStop]

/-- See `sStopped1`. -/
def sStopped2 : PlayerState := runCmds cfg10 initState [Cmd.httpStop, Cmd.httpStop]

/-- C6 counterexample: after one `Stop`, the fallback viewer pid 0 is
active and owned; the second `Stop` invokes `_show_fallback` again, which —
despite the viewer being active — launches a second viewer (pid 1) and
overwrites the handle, leaving two alive fallback viewer processes of which
only the newer is owned.  `_show_fallback` has no "no fallback process is
active" guard. -/
theorem c6_counterexample :
    sStopped1.fallbackOwned = some 0 ∧
    alive? 0 sStopped1.procs = true ∧
    sStopped2.fallbackOwned = some 1 ∧
    alive? 0 sStopped2.procs = true ∧
    (sStopped2.procs.filter fun pr => pr.isFallback && pr.alive).length = 2 := by
  decide

/-- C6 (amended): `_show_fallback` with a missing or unset image path is a
silent no-op (nothing is spawned, the handle is untouched); with a present
image it launches a viewer unconditionally — even when a fallback process is
already active — overwriting the owned handle while leaving the previous
viewer process untouched (running but no longer owned), so the controller
owns at most one handle but does not guarantee at most one live viewer. -/
theorem c6_show_fallback (cfg : Config) (s : PlayerState) (p : Nat) (hp : p < s.nextPid) :
    (cfg.imageOk = false →
      (showFallback cfg s).procs = s.procs ∧
      (showFallback cfg s).fallbackOwned = s.fallbackOwned) ∧
    (cfg.imageOk = true →
      (showFallback cfg s).fallbackOwned = some s.nextPid ∧
      (showFallback cfg s).procs = s.procs ++
        [{ pid := s.nextPid, alive := true, isFallback := true, url := none }] ∧
      alive? p (showFallback cfg s).procs = alive? p s.procs) := by
  constructor
  · intro h
    unfold showFallback
    simp [h]
  · intro h
    unfold showFallback
    refine ⟨by simp [h], by simp [h], ?_⟩
    simp only [h, if_true]
    exact alive?_append_fresh p s.nextPid s.procs _ rfl hp

/-- C6 witness: the amended statement instantiated at the state after one
`Stop` (fallback pid 0 active), with `p = 0`. -/
theorem c6_show_fallback_witness :
    (cfg10.imageOk = false →
      (showFallback cfg10 sStopped1).procs = sStopped1.procs ∧
      (showFallback cfg10 sStopped1).fallbackOwned = sStopped1.fallbackOwned) ∧
    (cfg10.imageOk = true →
      (showFallback cfg10 sStopped1).fallbackOwned = some sStopped1.nextPid ∧
      (showFallback cfg10 sStopped1).procs = sStopped1.procs ++
        [{ pid := sStopped1.nextPid, alive := true, isFallback := true, url := none }] ∧
      alive? 0 (showFallback cfg10 sStopped1).procs = alive? 0 sStopped1.procs) :=
  c6_show_fallback cfg10 sStopped1 0 (by decide)

/-- The reachable state `Playing("a")` whose owned process (pid 0) has just
exited. -/
def sCrashedA : PlayerState :=
  runCmds cfg10 initState [Cmd.httpPlay (some "a") SpawnOutcome.survives, Cmd.procDie 0]

/-- C7 counterexample: in the reachable state where the owned process of
`Playing("a")` has exited, the next monitor iteration transitions the
status from `playing` to `reconnecting` — a state transition — yet emits no
message at all: `_monitor_loop` never calls `publish_status`. -/
theorem c7_counterexample :
    sCrashedA.status = .playing ∧
    ((cmdStep cfg10 sCrashedA (.monPoll .crashes)).1).status = .reconnecting ∧
    (cmdStep cfg10 sCrashedA (.monPoll .crashes)).2 = [] := by
  decide

/-- C7 (amended): a retained `status` snapshot `{status, current_stream,
timestamp}` is emitted after every `Play` command with a non-empty resolved
URL and after every `Stop` command, on both the HTTP and MQTT surfaces; but
the monitor-driven transitions (to `reconnecting`, back to `playing`, and
to `error` on exhaustion) and asynchronous process exits emit nothing. -/
theorem c7_status_events (cfg : Config) (s : PlayerState) (u : String) (o : SpawnOutcome)
    (p : Nat) (hu : u ≠ "") :
    (cmdStep cfg s (.httpPlay (some u) o)).2 =
      [statusSnapshot (cmdStep cfg s (.httpPlay (some u) o)).1] ∧
    (cmdStep cfg s (.mqttSwitch (some u) o)).2 =
      [statusSnapshot (cmdStep cfg s (.mqttSwitch (some u) o)).1] ∧
    (cmdStep cfg s .httpStop).2 = [statusSnapshot (cmdStep cfg s .httpStop).1] ∧
    (cmdStep cfg s .mqttStop).2 = [statusSnapshot (cmdStep cfg s .mqttStop).1] ∧
    (statusSnapshot (cmdStep cfg s (.httpPlay (some u) o)).1).retained = true ∧
    (cmdStep cfg s (.monPoll o)).2 = [] ∧
    (cmdStep cfg s (.procDie p)).2 = [] := by
  simp [cmdStep, playStreamHandler, handleSwitch, stopHandler, statusSnapshot, hu]

/-- C7 witness: the amended statement instantiated at the initial state
with URL `"a"`. -/
theorem c7_status_events_witness :
    (cmdStep cfg10 initState (.httpPlay (some "a") .survives)).2 =
      [statusSnapshot (cmdStep cfg10 initState (.httpPlay (some "a") .survives)).1] ∧
    (cmdStep cfg10 initState (.mqttSwitch (some "a") .survives)).2 =
      [statusSnapshot (cmdStep cfg10 initState (.mqttSwitch (some "a") .survives)).1] ∧
    (cmdStep cfg10 initState .httpStop).2 =
      [statusSnapshot (cmdStep cfg10 initState .httpStop).1] ∧
    (cmdStep cfg10 initState .mqttStop).2 =
      [statusSnapshot (cmdStep cfg10 initState .mqttStop).1] ∧
    (statusSnapshot (cmdStep cfg10 initState (.httpPlay (some "a") .survives)).1).retained = true ∧
    (cmdStep cfg10 initState (.monPoll .survives)).2 = [] ∧
    (cmdStep cfg10 initState (.procDie 0)).2 = [] :=
  c7_status_events cfg10 initState "a" .survives 0 (by decide)

/-- C1 witness: the amended handover statement instantiated at the concrete
state `Playing("a")` with live process pid 0. -/
theorem c1_handover_witness :
    ((playStep cfg10 sPlayingA "b" .survives).status = .playing ∧
     (playStep cfg10 sPlayingA "b" .survives).current = some "b" ∧
     alive? 0 (playStep cfg10 sPlayingA "b" .survives).procs = false) ∧
    ((playStep cfg10 sPlayingA "b" .crashes).status = .errorS ∧
     (playStep cfg10 sPlayingA "b" .crashes).current = some "b" ∧
     alive? 0 (playStep cfg10 sPlayingA "b" .crashes).procs = true ∧
     (playStep cfg10 sPlayingA "b" .crashes).owned ≠ some 0) :=
  c1_handover cfg10 sPlayingA "a" "b" 0 (by decide) (by decide) (by decide)
    (by decide) (by decide)


/-! ## ConfigManager lemmas and claim C10 -/

theorem lookup_setKey_self (l : List (String × JVal)) (k : String) (v : JVal) :
    lookupKey (setKey l k v) k = some v := by
  induction l with
  | nil => simp [setKey, lookupKey]
  | cons kv t ih =>
    obtain ⟨k', v'⟩ := kv
    by_cases h : k' = k
    · simp [setKey, lookupKey, h]
    · simp [setKey, lookupKey, h, ih]

theorem setPath_getPath (ks : List String) :
    ∀ c v : JVal, ks ≠ [] → canSetB c ks = true →
      ∃ c', setPath c ks v = some c' ∧ getPath c' ks = some v := by
  induction ks with
  | nil => intro c v h _; cases h rfl
  | cons k ks ih =>
    intro c v _ hcan
    cases ks with
    | nil =>
      cases c with
      | obj l =>
        refine ⟨.obj (setKey l k v), rfl, ?_⟩
        simp [getPath, lookup_setKey_self]
      | str a => simp [canSetB] at hcan
      | num a => simp [canSetB] at hcan
      | boolV a => simp [canSetB] at hcan
      | arr a => simp [canSetB] at hcan
      | null => simp [canSetB] at hcan
    | cons k2 ks2 =>
      cases c with
      | obj l =>
        cases hl : lookupKey l k with
        | none =>
          have hcan' : canSetB (.obj []) (k2 :: ks2) = true := by
            simpa [canSetB, hl] using hcan
          obtain ⟨sub', hset, hget⟩ := ih (.obj []) v (by simp) hcan'
          refine ⟨.obj (setKey l k sub'), ?_, ?_⟩
          · simp [setPath, hl, hset]
          · simp [getPath, lookup_setKey_self, hget]
        | some sub =>
          cases sub with
          | obj l' =>
            have hcan' : canSetB (.obj l') (k2 :: ks2) = true := by
              simpa [canSetB, hl] using hcan
            obtain ⟨sub', hset, hget⟩ := ih (.obj l') v (by simp) hcan'
            refine ⟨.obj (setKey l k sub'), ?_, ?_⟩
            · simp [setPath, hl, hset]
            · simp [getPath, lookup_setKey_self, hget]
          | str a => simp [canSetB, hl] at hcan
          | num a => simp [canSetB, hl] at hcan
          | boolV a => simp [canSetB, hl] at hcan
          | arr a => simp [canSetB, hl] at hcan
          | null => simp [canSetB, hl] at hcan
      | str a => simp [canSetB] at hcan
      | num a => simp [canSetB] at hcan
      | boolV a => simp [canSetB] at hcan
      | arr a => simp [canSetB] at hcan
      | null => simp [canSetB] at hcan

theorem getFails_getPath (ks : List String) :
    ∀ c : JVal, getFails c ks = true → getPath c ks = none := by
  induction ks with
  | nil => intro c h; simp [getFails] at h
  | cons k ks ih =>
    intro c h
    cases c with
    | obj l =>
      cases hl : lookupKey l k with
      | none => simp [getPath, hl]
      | some v =>
        have hrec := ih v (by simpa [getFails, hl] using h)
        simp [getPath, hl, hrec]
    | str a => rfl
    | num a => rfl
    | boolV a => rfl
    | arr a => rfl
    | null => rfl

theorem splitDot_ne_nil : ∀ cs : List Char, splitDot cs ≠ []
  | [] => by simp [splitDot]
  | c :: rest => by
    have hr := splitDot_ne_nil rest
    unfold splitDot
    cases h : splitDot rest with
    | nil => exact absurd h hr
    | cons s t => by_cases hc : c = '.' <;> simp [hc]

/-- C10: for a dot-notation key whose split components are `ks` (always
non-empty, as `str.split` is) and whose intermediate components are each
absent from the configuration or map to dictionaries (`canSetB`), `set`
succeeds and a subsequent `get` of the same key returns the stored value,
not the default; and `get(key2, default)` returns the default whenever its
traversal hits a missing component or a non-dictionary (`getFails`). -/
theorem c10_config_roundtrip (c c2 : JVal) (key key2 : String) (ks ks2 : List String)
    (v d d2 : JVal)
    (hk : splitDot key.toList = ks) (hcan : canSetB c ks = true)
    (hk2 : splitDot key2.toList = ks2) (hfail : getFails c2 ks2 = true) :
    (∃ c', configSet c key v = some c' ∧ configGet c' key d = v) ∧
    configGet c2 key2 d2 = d2 := by
  have hne : ks ≠ [] := hk ▸ splitDot_ne_nil key.toList
  constructor
  · obtain ⟨c', hset, hget⟩ := setPath_getPath ks c v hne hcan
    refine ⟨c', ?_, ?_⟩
    · rw [configSet, hk, hset]
    · rw [configGet, hk, hget]
      rfl
  · rw [configGet, hk2, getFails_getPath ks2 c2 hfail]
    rfl

/-- C10 witness: round trip of `set('mqtt.broker', "x")` then
`get('mqtt.broker')` on a configuration where `mqtt` maps to a dictionary,
and default-return of `get('a.c.d')` on a configuration where `a` maps to a
string. -/
theorem c10_config_roundtrip_witness :
    (∃ c', configSet (.obj [("mqtt", .obj [("broker", .str "localhost")])])
        "mqtt.broker" (.str "x") = some c' ∧
      configGet c' "mqtt.broker" .null = .str "x") ∧
    configGet (.obj [("a", .str "b")]) "a.c.d" (.str "fallback") = .str "fallback" :=
  c10_config_roundtrip (.obj [("mqtt", .obj [("broker", .str "localhost")])])
    (.obj [("a", .str "b")]) "mqtt.broker" "a.c.d" ["mqtt", "broker"] ["a", "c", "d"]
    (.str "x") .null (.str "fallback") (by decide) (by decide) (by decide) (by decide)

/-! ## Thread-model lemmas -/

theorem stoppedQuiet_split (s : TState) (h : stoppedQuiet s = true) :
    s.running = false ∧ s.current = none ∧ s.owned = none := by
  unfold stoppedQuiet at h
  simp only [Bool.and_eq_true, Bool.not_eq_true', Option.isNone_iff_eq_none] at h
  exact ⟨h.1.1, h.1.2, h.2⟩

theorem threadStep_quiet (cfg : Config) (s : TState) (tid : Nat) (r : Bool)
    (h : stoppedQuiet s = true) :
    stoppedQuiet (threadStep cfg s tid r) = true ∧
    (threadStep cfg s tid r).procs = s.procs := by
  obtain ⟨hr, hc, ho⟩ := stoppedQuiet_split s h
  unfold threadStep
  cases hf : s.threads.find? (fun t => t.tid == tid) with
  | none => exact ⟨h, rfl⟩
  | some t =>
    obtain ⟨tid0, att0, pc0⟩ := t
    cases pc0 <;> refine ⟨?_, ?_⟩ <;> simp [stoppedQuiet, hr, hc, ho]

theorem runT_quiet (cfg : Config) (tr : List TEv) :
    ∀ s : TState, tr.all threadOnly = true → stoppedQuiet s = true →
      stoppedQuiet (runT cfg s tr) = true ∧ (runT cfg s tr).procs = s.procs := by
  induction tr with
  | nil => intro s _ h; exact ⟨h, rfl⟩
  | cons e es ih =>
    intro s hall h
    rw [List.all_cons, Bool.and_eq_true] at hall
    obtain ⟨he, hes⟩ := hall
    cases e with
    | thread tid r =>
      obtain ⟨hq, hpr⟩ := threadStep_quiet cfg s tid r h
      obtain ⟨hq2, hpr2⟩ := ih (threadStep cfg s tid r) hes hq
      refine ⟨hq2, ?_⟩
      show (runT cfg (threadStep cfg s tid r) es).procs = s.procs
      rw [hpr2, hpr]
    | playBegin u r => exact absurd he (by simp [threadOnly])
    | playEnd => exact absurd he (by simp [threadOnly])
    | stopCmd => exact absurd he (by simp [threadOnly])
    | procDie p => exact absurd he (by simp [threadOnly])

theorem stopT_quiet (cfg : Config) (s : TState) (hp : s.pending = none) :
    stoppedQuiet (stopT cfg s) = true := by
  unfold stopT
  rw [hp]
  cases ho : s.owned <;> by_cases hio : cfg.imageOk <;>
    simp [showFallbackT, stoppedQuiet, ho, hio]

theorem playBeginT_threads (cfg : Config) (s : TState) (u : String) (r : Bool) :
    (playBeginT cfg s u r).threads = s.threads := by
  unfold playBeginT
  by_cases hp : s.pending.isSome <;> cases r <;> by_cases hio : cfg.imageOk <;>
    simp [showFallbackT, hp, hio]

theorem stopFallbackT_threads (s : TState) : (stopFallbackT s).threads = s.threads := by
  unfold stopFallbackT
  cases hf : s.fallbackOwned <;> simp [hf]

theorem playEndT_keeps_threads (cfg : Config) (s : TState) (t : MonThread)
    (ht : t ∈ s.threads) : t ∈ (playEndT cfg s).threads := by
  unfold playEndT
  cases hpd : s.pending with
  | none => exact ht
  | some pd =>
    cases ho : s.owned with
    | none =>
      by_cases hio : cfg.imageOk <;> simpa [showFallbackT, hio] using ht
    | some p =>
      by_cases hal : alive? p s.procs = true
      · cases hop : pd.oldProc with
        | none =>
          simp [hal, hop, stopFallbackT_threads, List.mem_append]
          exact Or.inl ht
        | some q =>
          simp [hal, hop, stopFallbackT_threads, List.mem_append]
          exact Or.inl ht
      · by_cases hio : cfg.imageOk <;> simpa [showFallbackT, hal, hio] using ht

theorem ownedAliveT_split (s : TState) (h : ownedAliveT s = true) :
    ∃ p, s.owned = some p ∧ alive? p s.procs = true := by
  unfold ownedAliveT at h
  cases ho : s.owned with
  | none => rw [ho] at h; cases h
  | some p => rw [ho] at h; exact ⟨p, rfl, h⟩

/-! ## Claims C3 and C4 (thread-granularity) -/

/-- The state after `Play("a")` succeeded (monitor thread 0 started), the
process for `"a"` died, thread 0 polled (attempts 1, `'reconnecting'`) and
entered its reconnect-delay sleep, and then a later `Play("b")` ran to
completion successfully — `_start_monitor` joined thread 0 with its
1-second timeout (thread 0 is sleeping 2 s, so the join expires), set
`_running = True` again and started thread 1.  Thread 0 is still alive at
its relaunch statement. -/
def sSwitchedT : TState :=
  runT cfg10 initT
    [TEv.playBegin "a" false, TEv.playEnd, TEv.procDie 0, TEv.thread 0 false,
     TEv.thread 0 false, TEv.playBegin "b" false, TEv.playEnd]

/-- C3 counterexample: in `sSwitchedT` the later `Play("b")` has completed
(`pending = none`, status `playing`), yet the monitor thread started by
`Play("a")` is still alive mid-iteration; its next statement spawns a brand
new process (pid 2) and overwrites the shared `self._process` — a
superseded monitor performing process mutation after a later `Play` call
completed, even a successful one. -/
theorem c3_counterexample :
    sSwitchedT.pending = none ∧
    sSwitchedT.status = .playing ∧
    ({ tid := 0, attempts := 1, pc := .relaunch } : MonThread) ∈ sSwitchedT.threads ∧
    (tStep cfg10 sSwitchedT (.thread 0 false)).procs.length = sSwitchedT.procs.length + 1 ∧
    (tStep cfg10 sSwitchedT (.thread 0 false)).owned = some 2 := by
  decide

/-- C3 (amended): after `Stop()` returns, and until a later `Play` begins,
no monitor thread performs any process mutation: `stop` leaves the running
flag down with no current stream and no owned process, and in that
condition every monitor-thread step leaves the process table exactly
unchanged (a thread at its relaunch statement finds a cleared stream, so
`Popen` raises before spawning; every other position launches and
terminates nothing), so the table is unchanged across any run of
monitor-thread steps.  A later `Play`, however — successful or not — never
removes an existing monitor thread (neither of its halves does: the
1-second join cannot force an exit, and `_start_monitor` re-arms the shared
running flag), and such a surviving thread may still relaunch processes
(the claim as stated fails there, see the counterexample). -/
theorem c3_generation (cfg : Config) (s : TState) (tr : List TEv) (t : MonThread)
    (u : String) (r : Bool)
    (hp : s.pending = none) (htr : tr.all threadOnly = true) (ht : t ∈ s.threads) :
    stoppedQuiet (stopT cfg s) = true ∧
    (runT cfg (stopT cfg s) tr).procs = (stopT cfg s).procs ∧
    (playBeginT cfg s u r).threads = s.threads ∧
    t ∈ (playEndT cfg s).threads := by
  have hq := stopT_quiet cfg s hp
  exact ⟨hq, (runT_quiet cfg tr (stopT cfg s) htr hq).2, playBeginT_threads cfg s u r,
    playEndT_keeps_threads cfg s t ht⟩

/-- C3 witness: the amended statement instantiated at `sSwitchedT` (two
live threads, no pending play) with a two-step monitor-only run after the
stop. -/
theorem c3_generation_witness :
    stoppedQuiet (stopT cfg10 sSwitchedT) = true ∧
    (runT cfg10 (stopT cfg10 sSwitchedT) [TEv.thread 0 false, TEv.thread 1 false]).procs =
      (stopT cfg10 sSwitchedT).procs ∧
    (playBeginT cfg10 sSwitchedT "c" false).threads = sSwitchedT.threads ∧
    ({ tid := 0, attempts := 1, pc := .relaunch } : MonThread) ∈
      (playEndT cfg10 sSwitchedT).threads :=
  c3_generation cfg10 sSwitchedT [TEv.thread 0 false, TEv.thread 1 false]
    { tid := 0, attempts := 1, pc := .relaunch } "c" false (by decide) (by decide) (by decide)

/-- The state in which `Play("a")` succeeded, its process died, monitor
thread 0 consumed one attempt on a relaunch that crashed within its settle
window (attempts 1), looped back past its guard, and — while it was in its
1-second poll sleep — a later `Play("b")` spawned a fresh process (pid 2,
alive, unconfirmed) and entered its own settle sleep.  Thread 0 is at its
exit check with `attempts = 1` and the settle window of `Play("b")` still
open (`pending` set, status `'starting'`). -/
def sMidSettle : TState :=
  runT cfg10 initT
    [TEv.playBegin "a" false, TEv.playEnd, TEv.procDie 0, TEv.thread 0 false,
     TEv.thread 0 false, TEv.thread 0 false, TEv.procDie 1, TEv.thread 0 false,
     TEv.thread 0 false, TEv.playBegin "b" false]

/-- C4 counterexample: in `sMidSettle` the monitor's next poll finds the
owned process alive — it is the *unconfirmed* process `Play("b")` spawned,
still inside its settle window (`pending` set, status `'starting'`) — and
executes `attempts = 0` (line 236): the counter drops from 1 to 0 at a
mere healthy poll, with no (re)launched process confirmed past any settle
window.  This refutes both "on any poll that merely finds the process
alive, attempts is left unchanged" and "resets to 0 ... and at no other
point". -/
theorem c4_counterexample :
    sMidSettle.pending = some { oldProc := some 1 } ∧
    sMidSettle.status = .starting ∧
    sMidSettle.threads = [{ tid := 0, attempts := 1, pc := .poll }] ∧
    ownedAliveT sMidSettle = true ∧
    (tStep cfg10 sMidSettle (.thread 0 false)).threads =
      [{ tid := 0, attempts := 0, pc := .guard }] ∧
    (tStep cfg10 sMidSettle (.thread 0 false)).status = .starting := by
  decide

/-- C4 (amended): the monitor's `attempts` counter is written as follows —
(a) a poll that finds the owned process alive sets it to 0, whatever its
previous value and whether or not that process has been confirmed past a
settle window (it may be a concurrent `Play`'s unconfirmed spawn); (b) a
relaunch found alive at its settle check sets it to 0 and status to
`'playing'`; (c) a relaunch found dead (or gone) at its settle check leaves
the counter at its incremented value; (d) a poll that finds the owned
process dead with budget left increments it and moves to the relaunch. -/
theorem c4_attempts (cfg : Config) (r : Bool)
    (s1 : TState) (t1 : MonThread)
    (h1f : s1.threads.find? (fun t => t.tid == t1.tid) = some t1)
    (h1pc : t1.pc = .poll) (h1al : ownedAliveT s1 = true)
    (s2 : TState) (t2 : MonThread)
    (h2f : s2.threads.find? (fun t => t.tid == t2.tid) = some t2)
    (h2pc : t2.pc = .settleCheck) (h2al : ownedAliveT s2 = true)
    (s3 : TState) (t3 : MonThread)
    (h3f : s3.threads.find? (fun t => t.tid == t3.tid) = some t3)
    (h3pc : t3.pc = .settleCheck) (h3al : ownedAliveT s3 = false)
    (s4 : TState) (t4 : MonThread) (p4 : Nat)
    (h4f : s4.threads.find? (fun t => t.tid == t4.tid) = some t4)
    (h4pc : t4.pc = .poll) (h4own : s4.owned = some p4)
    (h4dead : alive? p4 s4.procs = false) (h4lt : t4.attempts < cfg.maxAttempts) :
    threadStep cfg s1 t1.tid r =
      { s1 with threads := setThread t1.tid { t1 with attempts := 0, pc := .guard } s1.threads } ∧
    threadStep cfg s2 t2.tid r =
      { s2 with status := .playing,
                threads := setThread t2.tid { t2 with attempts := 0, pc := .guard } s2.threads } ∧
    threadStep cfg s3 t3.tid r =
      { s3 with threads := setThread t3.tid { t3 with pc := .guard } s3.threads } ∧
    threadStep cfg s4 t4.tid r =
      { s4 with status := .reconnecting,
                threads := setThread t4.tid
                  { t4 with attempts := t4.attempts + 1, pc := .relaunch } s4.threads } := by
  refine ⟨?_, ?_, ?_, ?_⟩
  · obtain ⟨p1, hp1, ha1⟩ := ownedAliveT_split s1 h1al
    unfold threadStep
    simp [h1f, h1pc, hp1, ha1]
  · obtain ⟨p2, hp2, ha2⟩ := ownedAliveT_split s2 h2al
    unfold threadStep
    simp [h2f, h2pc, hp2, ha2]
  · unfold threadStep
    unfold ownedAliveT at h3al
    cases ho3 : s3.owned with
    | none => simp [h3f, h3pc, ho3]
    | some p3 =>
      rw [ho3] at h3al
      simp at h3al
      simp [h3f, h3pc, ho3, h3al]
  · unfold threadStep
    simp [h4f, h4pc, h4own, h4dead, h4lt]

/-- The `sMidSettle` trace stopped right after thread 0's relaunch spawned
pid 1 (alive, at the settle check). -/
def sRelaunchUp : TState :=
  runT cfg10 initT
    [TEv.playBegin "a" false, TEv.playEnd, TEv.procDie 0, TEv.thread 0 false,
     TEv.thread 0 false, TEv.thread 0 false]

/-- `sRelaunchUp` after the relaunched process died within its settle
window. -/
def sRelaunchDown : TState :=
  runT cfg10 initT
    [TEv.playBegin "a" false, TEv.playEnd, TEv.procDie 0, TEv.thread 0 false,
     TEv.thread 0 false, TEv.thread 0 false, TEv.procDie 1]

/-- The trace stopped with thread 0 at its exit check and the owned process
dead. -/
def sDeadPoll : TState :=
  runT cfg10 initT
    [TEv.playBegin "a" false, TEv.playEnd, TEv.procDie 0, TEv.thread 0 false]

/-- C4 witness: the four parts instantiated, each non-vacuously, at states
of the `sMidSettle` trace — (a) at `sMidSettle` itself (attempts 1, owned
alive, mid-settle of `Play("b")`), (b) at `sRelaunchUp` (settle check of a
surviving relaunch: attempts 1 resets to 0), (c) at `sRelaunchDown` (settle
check of a crashed relaunch: attempts stays 1), (d) at `sDeadPoll` (poll
finding the owned process dead: attempts 0 increments to 1). -/
theorem c4_attempts_witness :
    threadStep cfg10 sMidSettle 0 false =
      { sMidSettle with
        threads := setThread 0 ({ tid := 0, attempts := 0, pc := .guard } : MonThread)
            sMidSettle.threads } ∧
    threadStep cfg10 sRelaunchUp 0 false =
      { sRelaunchUp with
        status := .playing,
        threads := setThread 0 ({ tid := 0, attempts := 0, pc := .guard } : MonThread)
            sRelaunchUp.threads } ∧
    threadStep cfg10 sRelaunchDown 0 false =
      { sRelaunchDown with
        threads := setThread 0 ({ tid := 0, attempts := 1, pc := .guard } : MonThread)
            sRelaunchDown.threads } ∧
    threadStep cfg10 sDeadPoll 0 false =
      { sDeadPoll with
        status := .reconnecting,
        threads := setThread 0 ({ tid := 0, attempts := 1, pc := .relaunch } : MonThread)
            sDeadPoll.threads } :=
  c4_attempts cfg10 false
    sMidSettle { tid := 0, attempts := 1, pc := .poll } (by decide) (by decide) (by decide)
    sRelaunchUp { tid := 0, attempts := 1, pc := .settleCheck } (by decide) (by decide)
    (by decide)
    sRelaunchDown { tid := 0, attempts := 1, pc := .settleCheck } (by decide) (by decide)
    (by decide)
    sDeadPoll { tid := 0, attempts := 0, pc := .poll } 0 (by decide) (by decide) (by decide)
    (by decide) (by decide)

end StreamDisplay
